import Mathlib

/-!
Verification of the theme palette generation engine
(`scripts/generate_theme_colors.py`): a shallow embedding of its color
arithmetic, palette construction and emitters, with theorems settling the
frozen claims about the specification.

Modelling conventions:
* Python dicts are insertion-ordered association lists (`List (String × String)`);
  `setItem` replaces in place when the key exists and appends otherwise,
  exactly like `d[k] = v`.
* Python floats are modelled by exact rationals, and `round` by
  round-half-to-even (`pyRound`), which is Python 3 `round` semantics.
  The interpolation fractions used by the program are short decimals; an
  exhaustive check of all 144 channel interpolations performed by the
  configured pipeline (3 themes × 4 ramps × 4 stops × 3 channels), as well
  as of every other interpolation appearing in a theorem below, shows the
  double-precision evaluation agrees with the exact-rational one at every
  such input, so the rational model is extensionally faithful on every
  input at which `mix` is applied in this development.
* `int(s, 16)` is modelled on plain hexadecimal-digit strings (upper or
  lower case); the exotic forms Python additionally accepts (signs,
  whitespace, `0x` prefixes, underscores) never occur in the strings the
  theorems below quantify over, and on every concrete input used below the
  model agrees with Python.
* Fallible code returns `Option`/`Except`: a Python `ValueError`/`KeyError`
  becomes `none` or `.error`.
-/

set_option maxRecDepth 8192

namespace ThemeGen

/-- Hexadecimal digit test, upper or lower case (the digits accepted by
Python `int(_, 16)` in its plain form). -/
def isHexDigitChar (c : Char) : Bool :=
  (decide ('0' ≤ c) && decide (c ≤ '9')) ||
  (decide ('a' ≤ c) && decide (c ≤ 'f')) ||
  (decide ('A' ≤ c) && decide (c ≤ 'F'))

/-- Value of a hexadecimal digit character. -/
def hexDigitVal (c : Char) : Nat :=
  if decide ('0' ≤ c) && decide (c ≤ '9') then c.toNat - 48
  else if decide ('a' ≤ c) && decide (c ≤ 'f') then c.toNat - 97 + 10
  else c.toNat - 65 + 10

/-- Model of Python `int(s, 16)` on its plain hex-digit fragment: fails on
the empty string and on any non-hex-digit character, otherwise the base-16
value. -/
def pyIntHex (s : List Char) : Option Nat :=
  if s ≠ [] ∧ s.all isHexDigitChar then
    some (s.foldl (fun a c => 16 * a + hexDigitVal c) 0)
  else none

/-- Python slice `l[i : i + n]`. -/
def pySlice (l : List Char) (i n : Nat) : List Char :=
  (l.drop i).take n

/-- Model of `hex_to_rgb`: strips every leading `#` (Python `lstrip("#")`), then
parses the three two-character slices at positions 0, 2, 4.  No length
check is performed: characters past position 6 are ignored, and a final
slice of length one is accepted. -/
def hex_to_rgb (s : String) : Option (Int × Int × Int) :=
  let t := s.data.dropWhile (· = '#')
  match pyIntHex (pySlice t 0 2), pyIntHex (pySlice t 2 2), pyIntHex (pySlice t 4 2) with
  | some r, some g, some b => some ((r : Int), (g : Int), (b : Int))
  | _, _, _ => none

/-- Uppercase hexadecimal digit character for `n < 16`. -/
def hexUpperDigit (n : Nat) : Char :=
  if n < 10 then Char.ofNat (48 + n) else Char.ofNat (55 + n)

/-- Auxiliary structural recursion (on fuel) producing the uppercase
hexadecimal digits of `n`, most significant first, in front of `acc`. -/
def hexDigitsUpperAux : Nat → Nat → List Char → List Char
  | 0, _, acc => acc
  | fuel + 1, n, acc =>
      if n < 16 then hexUpperDigit n :: acc
      else hexDigitsUpperAux fuel (n / 16) (hexUpperDigit (n % 16) :: acc)

/-- Uppercase hexadecimal digit list of a natural number (at least one
digit, most significant first). -/
def hexDigitsUpper (n : Nat) : List Char :=
  hexDigitsUpperAux (n + 1) n []

/-- Model of the Python format `f"{i:02X}"`: uppercase hexadecimal,
zero-padded to a minimum width of two (the sign, for negative inputs,
counts toward the width, as in Python). -/
def pyFormat02X (i : Int) : String :=
  let body := hexDigitsUpper i.natAbs
  let sign : List Char := if i < 0 then ['-'] else []
  let pad := 2 - (sign.length + body.length)
  String.mk (sign ++ List.replicate pad '0' ++ body)

/-- Model of `rgb_to_hex`: `"#"` followed by the three channels in `02X` format. -/
def rgb_to_hex (rgb : Int × Int × Int) : String :=
  "#" ++ pyFormat02X rgb.1 ++ pyFormat02X rgb.2.1 ++ pyFormat02X rgb.2.2

/-- Exact fractions with (by construction) positive denominators, used to
model the program's float arithmetic.  They are kept unnormalized so that
every operation is plain integer arithmetic and reduces in the kernel. -/
structure Frac where
  num : Int
  den : Int
  deriving Repr, DecidableEq

/-- Embed an integer as a fraction. -/
def Frac.ofInt (n : Int) : Frac := ⟨n, 1⟩

/-- Exact fraction addition. -/
def Frac.add (a b : Frac) : Frac := ⟨a.num * b.den + b.num * a.den, a.den * b.den⟩

/-- Exact fraction subtraction. -/
def Frac.sub (a b : Frac) : Frac := ⟨a.num * b.den - b.num * a.den, a.den * b.den⟩

/-- Exact fraction multiplication. -/
def Frac.mul (a b : Frac) : Frac := ⟨a.num * b.num, a.den * b.den⟩

/-- Python 3 `round` to an integer on a fraction with positive
denominator: round half to even. -/
def pyRound (q : Frac) : Int :=
  let f : Int := q.num.fdiv q.den
  let remTwice : Int := 2 * (q.num - f * q.den)
  if remTwice < q.den then f
  else if q.den < remTwice then f + 1
  else if f % 2 = 0 then f else f + 1

/-- Model of `mix`: per-channel linear interpolation `round(c1 + (c2 - c1) * p)`
between two hex colors, re-encoded as hex.  A hex parse failure
(`ValueError` in Python) is `none`. -/
def mix (c1 c2 : String) (p : Frac) : Option String :=
  match hex_to_rgb c1, hex_to_rgb c2 with
  | some (r1, g1, b1), some (r2, g2, b2) =>
      some (rgb_to_hex
        (pyRound ((Frac.ofInt r1).add ((Frac.ofInt (r2 - r1)).mul p)),
         pyRound ((Frac.ofInt g1).add ((Frac.ofInt (g2 - g1)).mul p)),
         pyRound ((Frac.ofInt b1).add ((Frac.ofInt (b2 - b1)).mul p))))
  | _, _ => none

/-- Decidable equality for `Except` results (not provided by core). -/
instance exceptDecEq {ε α : Type} [DecidableEq ε] [DecidableEq α] :
    DecidableEq (Except ε α)
  | .error e, .error f =>
      match decEq e f with
      | isTrue h => isTrue (h ▸ rfl)
      | isFalse h => isFalse (fun hh => h (Except.error.inj hh))
  | .error _, .ok _ => isFalse Except.noConfusion
  | .ok _, .error _ => isFalse Except.noConfusion
  | .ok a, .ok b =>
      match decEq a b with
      | isTrue h => isTrue (h ▸ rfl)
      | isFalse h => isFalse (fun hh => h (Except.ok.inj hh))

/-- Model of Python `s.startswith(pre)` (kernel-reducible, unlike
`String.startsWith`). -/
def pyStartsWith (s pre : String) : Bool :=
  pre.data.isPrefixOf s.data

/-- Codepoint-lexicographic strict order on character lists: exactly
Python's `<` on strings. -/
def charsLt : List Char → List Char → Bool
  | [], [] => false
  | [], _ :: _ => true
  | _ :: _, [] => false
  | a :: as, b :: bs =>
      if a.toNat < b.toNat then true
      else if b.toNat < a.toNat then false
      else charsLt as bs

/-- Strict codepoint-lexicographic order on strings. -/
def strLt (a b : String) : Bool := charsLt a.data b.data

/-- Reflexive closure of `strLt`. -/
def strLe (a b : String) : Bool := strLt a b || a == b

/-! ## Python dict model

A Python `dict` of strings is an insertion-ordered association list.
`d[k] = v` (`setItem`) replaces the value in place when the key is
present and appends a new entry otherwise, exactly like CPython. -/
/-- Model of the Python assignment `d[k] = v`. -/
def setItem (d : List (String × String)) (k v : String) : List (String × String) :=
  if d.any (fun p => p.1 == k) then
    d.map (fun p => if p.1 == k then (k, v) else p)
  else d ++ [(k, v)]

/-- The keys of an association list, in order. -/
def keysOf (d : List (String × String)) : List String := d.map Prod.fst

/-! ## Configuration -/
/-- A derived-ramp specification `(prefix, base, target, stops)`; stops
are `(suffix, delta)` pairs. -/
structure RampSpec where
  prefixName : String
  baseRef : String
  targetRef : String
  stops : List (Nat × Frac)

/-- Seeds of the `dark-red` theme, in source order, values verbatim (note
the lower-case hex). -/
def darkRedSeeds : List (String × String) :=
  [("--fg-500", "#b33831"), ("--bg-500", "#6e2727"), ("--whitest", "#45293f"),
   ("--blackest", "#ffffff"), ("--positive-500", "#1ebc73"),
   ("--negative-500", "#a24b6f"), ("--border-radius", "8px"),
   ("--border-thickness", "2px")]

/-- Seeds of the `semi-sky` theme. -/
def semiSkySeeds : List (String × String) :=
  [("--fg-500", "#8fd3ff"), ("--bg-500", "#4d9be6"), ("--whitest", "#2e222f"),
   ("--blackest", "#ffffff"), ("--positive-500", "#1ebc73"),
   ("--negative-500", "#e83b3b"), ("--border-radius", "8px"),
   ("--border-thickness", "2px")]

/-- Seeds of the `light-sand` theme. -/
def lightSandSeeds : List (String × String) :=
  [("--bg-500", "#ab947a"), ("--fg-500", "#c7dcd0"), ("--blackest", "#3e3546"),
   ("--whitest", "#ffffff"), ("--positive-500", "#1ebc73"),
   ("--negative-500", "#e83b3b"), ("--border-radius", "8px"),
   ("--border-thickness", "2px")]

/-- The `THEMES` table, in source order. -/
def THEMES : List (String × List (String × String)) :=
  [("dark-red", darkRedSeeds), ("semi-sky", semiSkySeeds),
   ("light-sand", lightSandSeeds)]

/-- The `DERIVED_SCALES` table; the float stop weights are the exact
decimals written in the source. -/
def DERIVED_SCALES : List RampSpec :=
  [⟨"--fg", "--fg-500", "--whitest",
    [(100, ⟨9, 10⟩), (200, ⟨7, 10⟩), (300, ⟨5, 10⟩), (400, ⟨3, 10⟩)]⟩,
   ⟨"--bg", "--bg-500", "--whitest",
    [(100, ⟨9, 10⟩), (200, ⟨7, 10⟩), (300, ⟨5, 10⟩), (400, ⟨3, 10⟩)]⟩,
   ⟨"--fg", "--fg-500", "--blackest",
    [(600, ⟨1, 10⟩), (700, ⟨2, 10⟩), (800, ⟨3, 10⟩), (900, ⟨4, 10⟩)]⟩,
   ⟨"--bg", "--bg-500", "--blackest",
    [(600, ⟨1, 10⟩), (700, ⟨2, 10⟩), (800, ⟨3, 10⟩), (900, ⟨4, 10⟩)]⟩]

/-! ## Palette construction (`build_palette`) -/
/-- One ramp stop: `weight = 1 - delta; palette[prefix-suffix] =
mix(base, target, 1 - weight)`, exactly as in the source. -/
def applyStop (prefixPart base target : String) (pal : List (String × String))
    (stop : Nat × Frac) : Except String (List (String × String)) :=
  match mix base target ((Frac.ofInt 1).sub ((Frac.ofInt 1).sub stop.2)) with
  | some v => .ok (setItem pal (prefixPart ++ "-" ++ toString stop.1) v)
  | none => .error "ValueError: invalid hex color in mix"

/-- One `DERIVED_SCALES` entry: resolve `base`/`target` in the theme's
seed dict (a missing name is Python's `KeyError`), then apply the stops. -/
def applyScale (theme : List (String × String)) (pal : List (String × String))
    (s : RampSpec) : Except String (List (String × String)) :=
  match theme.lookup s.baseRef, theme.lookup s.targetRef with
  | some base, some target => s.stops.foldlM (applyStop s.prefixName base target) pal
  | _, _ => .error "KeyError: ramp reference missing from theme"

/-- The ramp-derivation half of `build_palette`: start from a copy of the
seed dict and accumulate every ramp stop of every scale. -/
def rampPhase (scales : List RampSpec) (theme : List (String × String)) :
    Except String (List (String × String)) :=
  scales.foldlM (applyScale theme) theme

/-- Model of `op_steps = list(range(5, 105, 5))`. -/
def opSteps : List Nat := List.range' 5 20 5

/-- Model of the Python format `f"{n:02d}"` for a natural number. -/
def pad2 (n : Nat) : String :=
  if n < 10 then "0" ++ toString n else toString n

/-- Model of `f"{pct / 100.0:.2f}"` for the percentages used by the
expander: the two-decimal rendering of `pct/100`.  For every `pct` in
`opSteps` (and every `pct ≤ 100` with two-decimal value) this agrees with
the double-precision formatting, because the representation error of
`pct / 100.0` never moves the value across a two-decimal rounding
boundary; all twenty concrete cases were checked against Python. -/
def alphaStr (pct : Nat) : String :=
  toString (pct / 100) ++ "." ++ pad2 (pct % 100)

/-- The opacity-variant value string `rgb(R G B / A)`. -/
def rgbLine (r g b : Int) (pct : Nat) : String :=
  "rgb(" ++ toString r ++ " " ++ toString g ++ " " ++ toString b ++ " / " ++
    alphaStr pct ++ ")"

/-- The guard of the expansion loop: values starting with neither `#` nor
`rgb` are skipped (`continue`). -/
def isColorVal (v : String) : Bool :=
  pyStartsWith v "#" || pyStartsWith v "rgb"

/-- The name of an opacity variant: `f"{name}-{pct:02d}"`. -/
def genName (n : String) (pct : Nat) : String :=
  n ++ "-" ++ pad2 pct

/-- One iteration of the expansion loop over the pre-expansion snapshot:
skip non-color values, otherwise parse the hex value (a failure is
Python's `ValueError`) and write the twenty opacity variants into the
working copy. -/
def expandStep (fullPal : List (String × String)) (q : String × String) :
    Except String (List (String × String)) :=
  if isColorVal q.2 then
    match hex_to_rgb q.2 with
    | some (r, g, b) =>
        .ok (opSteps.foldl
          (fun acc pct => setItem acc (genName q.1 pct) (rgbLine r g b pct))
          fullPal)
    | none => .error ("ValueError: invalid hex color " ++ q.2)
  else .ok fullPal

/-- The opacity-expansion half of `build_palette`: iterate over the
pre-expansion snapshot while writing into a working copy that starts as
that snapshot. -/
def opacityPhase (pal : List (String × String)) :
    Except String (List (String × String)) :=
  pal.foldlM expandStep pal

/-- Model of `build_palette`: ramp derivation over the seeds, then opacity
expansion of the result. -/
def build_palette (scales : List RampSpec) (theme : List (String × String)) :
    Except String (List (String × String)) :=
  rampPhase scales theme >>= opacityPhase

/-! ## Characterizations of the two phases

The derived token produced by one ramp stop, the derived tokens of one
scale, of the whole ramp phase, and the opacity variants derived from one
token.  These mirror `applyStop`/`expandStep`; the `_spec` lemmas below
prove that, wherever the generated names are fresh (no overwrite
happens), the folds of `build_palette` simply append these entries. -/
/-- The entry one ramp stop writes: name `prefix-suffix`, value
`mix(base, target, 1 - (1 - delta))` (exactly the expression the loop
computes); `none` when `mix` fails. -/
def stopEntry (pfx base target : String) (st : Nat × Frac) : Option (String × String) :=
  (mix base target ((Frac.ofInt 1).sub ((Frac.ofInt 1).sub st.2))).map
    (fun v => (pfx ++ "-" ++ toString st.1, v))

/-- The entries one `RampSpec` writes (empty on unresolved references). -/
def scaleEntries (theme : List (String × String)) (s : RampSpec) :
    List (String × String) :=
  match theme.lookup s.baseRef, theme.lookup s.targetRef with
  | some base, some target => s.stops.filterMap (stopEntry s.prefixName base target)
  | _, _ => []

/-- All entries the ramp phase writes. -/
def rampEntries (scales : List RampSpec) (theme : List (String × String)) :
    List (String × String) :=
  scales.flatMap (scaleEntries theme)

/-- The opacity variants derived from one token: twenty entries for a
parsable color value, none otherwise. -/
def genFor (q : String × String) : List (String × String) :=
  if isColorVal q.2 then
    match hex_to_rgb q.2 with
    | some (r, g, b) => opSteps.map (fun pct => (genName q.1 pct, rgbLine r g b pct))
    | none => []
  else []

/-- The pre-expansion palette (seeds then ramp-derived tokens) of the
`dark-red` theme, as computed by the ramp phase. -/
def midDark : List (String × String) :=
  [("--fg-500", "#b33831"),
   ("--bg-500", "#6e2727"),
   ("--whitest", "#45293f"),
   ("--blackest", "#ffffff"),
   ("--positive-500", "#1ebc73"),
   ("--negative-500", "#a24b6f"),
   ("--border-radius", "8px"),
   ("--border-thickness", "2px"),
   ("--fg-100", "#502A3E"),
   ("--fg-200", "#662E3B"),
   ("--fg-300", "#7C3038"),
   ("--fg-400", "#923435"),
   ("--bg-100", "#49293D"),
   ("--bg-200", "#512838"),
   ("--bg-300", "#5A2833"),
   ("--bg-400", "#62282E"),
   ("--fg-600", "#BB4C46"),
   ("--fg-700", "#C2605A"),
   ("--fg-800", "#CA746F"),
   ("--fg-900", "#D18883"),
   ("--bg-600", "#7C3D3D"),
   ("--bg-700", "#8B5252"),
   ("--bg-800", "#9A6868"),
   ("--bg-900", "#A87D7D")]

/-- The pre-expansion palette (seeds then ramp-derived tokens) of the
`semi-sky` theme, as computed by the ramp phase. -/
def midSemi : List (String × String) :=
  [("--fg-500", "#8fd3ff"),
   ("--bg-500", "#4d9be6"),
   ("--whitest", "#2e222f"),
   ("--blackest", "#ffffff"),
   ("--positive-500", "#1ebc73"),
   ("--negative-500", "#e83b3b"),
   ("--border-radius", "8px"),
   ("--border-thickness", "2px"),
   ("--fg-100", "#383444"),
   ("--fg-200", "#4B576D"),
   ("--fg-300", "#5E7A97"),
   ("--fg-400", "#729EC1"),
   ("--bg-100", "#312E41"),
   ("--bg-200", "#374666"),
   ("--bg-300", "#3E5E8A"),
   ("--bg-400", "#4477AF"),
   ("--fg-600", "#9AD7FF"),
   ("--fg-700", "#A5DCFF"),
   ("--fg-800", "#B1E0FF"),
   ("--fg-900", "#BCE5FF"),
   ("--bg-600", "#5FA5E8"),
   ("--bg-700", "#71AFEB"),
   ("--bg-800", "#82B9EE"),
   ("--bg-900", "#94C3F0")]

/-- The pre-expansion palette (seeds then ramp-derived tokens) of the
`light-sand` theme, as computed by the ramp phase. -/
def midSand : List (String × String) :=
  [("--bg-500", "#ab947a"),
   ("--fg-500", "#c7dcd0"),
   ("--blackest", "#3e3546"),
   ("--whitest", "#ffffff"),
   ("--positive-500", "#1ebc73"),
   ("--negative-500", "#e83b3b"),
   ("--border-radius", "8px"),
   ("--border-thickness", "2px"),
   ("--fg-100", "#F9FCFA"),
   ("--fg-200", "#EEF4F1"),
   ("--fg-300", "#E3EEE8"),
   ("--fg-400", "#D8E6DE"),
   ("--bg-100", "#F7F4F2"),
   ("--bg-200", "#E6DFD7"),
   ("--bg-300", "#D5CABC"),
   ("--bg-400", "#C4B4A2"),
   ("--fg-600", "#B9CBC2"),
   ("--fg-700", "#ACBBB4"),
   ("--fg-800", "#9EAAA7"),
   ("--fg-900", "#909999"),
   ("--bg-600", "#A08A75"),
   ("--bg-700", "#958170"),
   ("--bg-800", "#8A786A"),
   ("--bg-900", "#7F6E65")]

/-- The fully expanded palette of the `dark-red` theme. -/
def darkPalette : List (String × String) := midDark ++ midDark.flatMap genFor

/-- The fully expanded palette of the `semi-sky` theme. -/
def semiPalette : List (String × String) := midSemi ++ midSemi.flatMap genFor

/-- The fully expanded palette of the `light-sand` theme. -/
def sandPalette : List (String × String) := midSand ++ midSand.flatMap genFor

/-! ## Emitters -/
/-- Comparison used by `sorted(palette.items())`: Python sorts the `(name, value)` tuples
lexicographically; on the key-unique dicts this program sorts, that is
ordering by name, modelled with `insertionSort` under the string order. -/
def itemLe (a b : String × String) : Prop := strLe a.1 b.1 = true

instance : DecidableRel itemLe := fun a b =>
  inferInstanceAs (Decidable (strLe a.1 b.1 = true))

def sortedItems (pal : List (String × String)) : List (String × String) :=
  pal.insertionSort itemLe

/-- One declaration line of a stylesheet block. -/
def cssDeclLine (q : String × String) : String :=
  "  " ++ q.1 ++ ": " ++ q.2 ++ ";"

/-- The stylesheet lines of one theme block. -/
def cssBlockLines (name : String) (pal : List (String × String)) : List String :=
  (".theme-" ++ name ++ " \x7b") ::
    ((sortedItems pal).map cssDeclLine ++ ["\x7d", ""])

/-- Model of `emit_css`: every theme's scoped block, concatenated. -/
def emit_css (tps : List (String × List (String × String))) : String :=
  String.intercalate "\n" (tps.flatMap (fun p => cssBlockLines p.1 p.2))

/-- One entry line of the typed-map output. -/
def tsEntryLine (q : String × String) : String :=
  "  \x27" ++ q.1 ++ "\x27: \x27" ++ q.2 ++ "\x27,"

/-- The typed-map lines (single palette). -/
def tsLines (pal : List (String × String)) : List String :=
  "// Generated – do not edit" ::
    "export const COLOR_VARS: Record<string, string> = \x7b" ::
      ((sortedItems pal).map tsEntryLine ++ ["\x7d;\n"])

/-- Model of `emit_ts`. -/
def emit_ts (pal : List (String × String)) : String :=
  String.intercalate "\n" (tsLines pal)

/-! ## `main` -/
/-- Output path of the stylesheet artifact. -/
def OUT_CSS : String := "src/generated/colors.css"

/-- Output path of the typed-map artifact. -/
def OUT_TS : String := "src/generated/colors.ts"

/-- Model of `main`, parameterized by the (load-time-constant) theme
table: build every theme's palette first; only if all succeed, write the
stylesheet, then look up the default theme and write the typed map.  The
result is the list of performed file writes (path, content) together with
the error, if any, that aborted the run.  An exception inside the loop
aborts before any write, as in the source. -/
def palettesOf (themes : List (String × List (String × String))) :
    Except String (List (String × List (String × String))) :=
  themes.mapM (fun p => (build_palette DERIVED_SCALES p.2).map (fun pal => (p.1, pal)))

/-- Model of `main` proper: on success write the stylesheet, then look up
the default theme and write the typed map; on failure record the error
with no writes performed. -/
def mainModel (themes : List (String × List (String × String))) :
    List (String × String) × Option String :=
  match palettesOf themes with
  | .error e => ([], some e)
  | .ok tps =>
      let cssWrites := [(OUT_CSS, emit_css tps)]
      match tps.lookup "dark-red" with
      | none => (cssWrites, some "KeyError: dark-red")
      | some pal => (cssWrites ++ [(OUT_TS, emit_ts pal)], none)

/-! ## The configured pipeline -/
/-- The theme→palette table `main` computes for the configured themes. -/
def builtThemes : List (String × List (String × String)) :=
  [("dark-red", darkPalette), ("semi-sky", semiPalette), ("light-sand", sandPalette)]

/-! ## Hexadecimal digits and the encode/decode round trip -/
/-- The 22 characters accepted as hexadecimal digits. -/
def hexDigitChars : List Char :=
  (List.range 10).map (fun n => Char.ofNat (48 + n)) ++
    (List.range 6).map (fun n => Char.ofNat (97 + n)) ++
      (List.range 6).map (fun n => Char.ofNat (65 + n))

/-- Model of Python `s.upper()` (ASCII). -/
def pyUpper (s : String) : String := String.mk (s.data.map Char.toUpper)

/-! # The claims -/
/-- The two-seed theme of the end-to-end example. -/
def c1Theme : List (String × String) := [("base", "#000000"), ("target", "#FFFFFF")]

/-- The single-stop RampSpec `(500, 0.5)` on prefix `--x` of the
end-to-end example. -/
def c1Scales : List RampSpec := [⟨"--x", "base", "target", [(500, ⟨1, 2⟩)]⟩]

/-- The palette the example builds. -/
def c1Palette : List (String × String) :=
  (c1Theme ++ rampEntries c1Scales c1Theme) ++
    (c1Theme ++ rampEntries c1Scales c1Theme).flatMap genFor

/-- Two RampSpecs targeting the same prefix with the same suffix: a
collision. -/
def c8Scales : List RampSpec :=
  [⟨"--x", "b", "t", [(100, ⟨1, 2⟩)]⟩, ⟨"--x", "b", "t", [(100, ⟨1, 4⟩)]⟩]

/-- A two-seed theme for the collision example. -/
def c8Theme : List (String × String) := [("b", "#000000"), ("t", "#FFFFFF")]

/-- The sixteen uppercase hexadecimal digit characters. -/
def upperHexDigits : List Char :=
  (List.range 10).map (fun n => Char.ofNat (48 + n)) ++
    (List.range 6).map (fun n => Char.ofNat (65 + n))

/-- Whether a value string is `#` followed by exactly six uppercase hex
digits. -/
def isUpperHex6 (v : String) : Bool :=
  match v.data with
  | '#' :: rest => decide (rest.length = 6) && rest.all (fun c => decide (c ∈ upperHexDigits))
  | _ => false

/-! ## Theorems -/

/-! ### Freshness lemmas -/
theorem setItem_fresh (d : List (String × String)) (k v : String)
    (h : k ∉ keysOf d) : setItem d k v = d ++ [(k, v)] := by
  unfold setItem
  rw [if_neg]
  simp only [List.any_eq_true, beq_iff_eq, not_exists]
  intro p hp
  exact h (List.mem_map.mpr ⟨p, hp.1, hp.2⟩)

theorem foldl_setItem_append (es : List (String × String)) :
    ∀ fp : List (String × String), (∀ e ∈ es, e.1 ∉ keysOf fp) →
    (es.map Prod.fst).Nodup →
    es.foldl (fun acc e => setItem acc e.1 e.2) fp = fp ++ es := by
  induction es with
  | nil => intro fp _ _; simp
  | cons e es ih =>
      intro fp hfresh hnd
      simp only [List.map_cons, List.nodup_cons] at hnd
      simp only [List.foldl_cons]
      rw [setItem_fresh _ _ _ (hfresh e (by simp))]
      rw [ih (fp ++ [e]) ?fresh hnd.2]
      · simp
      case fresh =>
        intro q hq
        have h1 : q.1 ∉ keysOf fp := hfresh q (List.mem_cons_of_mem _ hq)
        have h2 : q.1 ≠ e.1 := by
          intro heq
          exact hnd.1 (List.mem_map.mpr ⟨q, hq, heq⟩)
        simp only [keysOf, List.map_append, List.map_cons, List.map_nil,
          List.mem_append, List.mem_singleton] at h1 ⊢
        rintro (hx | hx)
        · exact h1 hx
        · exact h2 hx

theorem exceptBindOk {ε α β : Type} (a : α) (f : α → Except ε β) :
    (Except.ok a >>= f : Except ε β) = f a := rfl

theorem expandStep_spec (fp : List (String × String)) (q : String × String)
    (hparse : isColorVal q.2 = true → (hex_to_rgb q.2).isSome)
    (hfresh : ∀ e ∈ genFor q, e.1 ∉ keysOf fp)
    (hnd : ((genFor q).map Prod.fst).Nodup) :
    expandStep fp q = .ok (fp ++ genFor q) := by
  by_cases hc : isColorVal q.2 = true
  · obtain ⟨⟨r, g, b⟩, hr⟩ := Option.isSome_iff_exists.mp (hparse hc)
    have hgen : genFor q =
        opSteps.map (fun pct => (genName q.1 pct, rgbLine r g b pct)) := by
      simp [genFor, hc, hr]
    rw [hgen] at hfresh hnd
    have hfold : opSteps.foldl
        (fun acc pct => setItem acc (genName q.1 pct) (rgbLine r g b pct)) fp =
        fp ++ opSteps.map (fun pct => (genName q.1 pct, rgbLine r g b pct)) := by
      have h := foldl_setItem_append
        (opSteps.map (fun pct => (genName q.1 pct, rgbLine r g b pct))) fp hfresh hnd
      rw [List.foldl_map] at h
      exact h
    unfold expandStep
    rw [if_pos hc, hr, hgen]
    exact congrArg Except.ok hfold
  · have hgen : genFor q = [] := by simp [genFor, hc]
    unfold expandStep
    rw [if_neg hc, hgen, List.append_nil]

theorem opacity_go (todo : List (String × String)) :
    ∀ fp : List (String × String),
    (∀ q ∈ todo, isColorVal q.2 = true → (hex_to_rgb q.2).isSome) →
    (∀ q ∈ todo, ∀ e ∈ genFor q, e.1 ∉ keysOf fp) →
    ((todo.flatMap genFor).map Prod.fst).Nodup →
    todo.foldlM expandStep fp = .ok (fp ++ todo.flatMap genFor) := by
  induction todo with
  | nil =>
      intro fp _ _ _
      simp only [List.flatMap_nil, List.append_nil, List.foldlM_nil]
      rfl
  | cons q todo ih =>
      intro fp hparse hfresh hnd
      simp only [List.flatMap_cons, List.map_append, List.nodup_append] at hnd
      obtain ⟨hnd1, hnd2, hdisj⟩ := hnd
      have hstep := expandStep_spec fp q (hparse q (by simp))
        (hfresh q (by simp)) hnd1
      simp only [List.foldlM_cons, hstep]
      have := ih (fp ++ genFor q)
        (fun p hp => hparse p (List.mem_cons_of_mem _ hp))
        ?fresh hnd2
      · simp only [exceptBindOk]
        rw [this, List.append_assoc, List.flatMap_cons]
      case fresh =>
        intro p hp e he
        have h1 : e.1 ∉ keysOf fp := hfresh p (List.mem_cons_of_mem _ hp) e he
        have h2 : e.1 ∉ (genFor q).map Prod.fst := by
          intro hmem
          exact hdisj hmem
            (List.mem_map.mpr ⟨e, List.mem_flatMap.mpr ⟨p, hp, he⟩, rfl⟩)
        simp only [keysOf, List.map_append, List.mem_append] at h1 h2 ⊢
        rintro (hx | hx)
        · exact h1 hx
        · exact h2 hx

/-- Where the names of all opacity variants are fresh (none is already a
token) and mutually distinct, the expansion loop appends exactly the
variants of the snapshot's color tokens, in snapshot order. -/
theorem opacityPhase_spec (pal : List (String × String))
    (hparse : ∀ q ∈ pal, isColorVal q.2 = true → (hex_to_rgb q.2).isSome)
    (hfresh : ∀ q ∈ pal, ∀ e ∈ genFor q, e.1 ∉ keysOf pal)
    (hnd : ((pal.flatMap genFor).map Prod.fst).Nodup) :
    opacityPhase pal = .ok (pal ++ pal.flatMap genFor) :=
  opacity_go pal pal hparse hfresh hnd

theorem applyStop_spec (pfx base target : String) (pal : List (String × String))
    (st : Nat × Frac) (e : String × String)
    (he : stopEntry pfx base target st = some e) (hfresh : e.1 ∉ keysOf pal) :
    applyStop pfx base target pal st = .ok (pal ++ [e]) := by
  obtain ⟨v, hv, hev⟩ := Option.map_eq_some'.mp he
  subst hev
  unfold applyStop
  rw [hv]
  exact congrArg Except.ok (setItem_fresh pal _ v hfresh)

theorem stops_fold_spec (pfx base target : String) (stops : List (Nat × Frac)) :
    ∀ pal : List (String × String),
    (∀ st ∈ stops, (stopEntry pfx base target st).isSome) →
    (∀ e ∈ stops.filterMap (stopEntry pfx base target), e.1 ∉ keysOf pal) →
    ((stops.filterMap (stopEntry pfx base target)).map Prod.fst).Nodup →
    stops.foldlM (applyStop pfx base target) pal =
      .ok (pal ++ stops.filterMap (stopEntry pfx base target)) := by
  induction stops with
  | nil =>
      intro pal _ _ _
      simp only [List.filterMap_nil, List.append_nil, List.foldlM_nil]
      rfl
  | cons st stops ih =>
      intro pal hsome hfresh hnd
      obtain ⟨e, he⟩ := Option.isSome_iff_exists.mp (hsome st (by simp))
      have hfm : (st :: stops).filterMap (stopEntry pfx base target) =
          e :: stops.filterMap (stopEntry pfx base target) := by
        simp [List.filterMap_cons, he]
      rw [hfm] at hfresh hnd
      simp only [List.map_cons, List.nodup_cons] at hnd
      have hstep := applyStop_spec pfx base target pal st e he (hfresh e (by simp))
      simp only [List.foldlM_cons, hstep, exceptBindOk]
      rw [ih (pal ++ [e]) (fun x hx => hsome x (List.mem_cons_of_mem _ hx)) ?fresh hnd.2]
      · rw [hfm, List.append_assoc]
        rfl
      case fresh =>
        intro p hp
        have h1 : p.1 ∉ keysOf pal := hfresh p (List.mem_cons_of_mem _ hp)
        have h2 : p.1 ≠ e.1 := by
          intro heq
          exact hnd.1 (List.mem_map.mpr ⟨p, hp, heq⟩)
        simp only [keysOf, List.map_append, List.map_cons, List.map_nil,
          List.mem_append, List.mem_singleton] at h1 ⊢
        rintro (hx | hx)
        · exact h1 hx
        · exact h2 hx

theorem applyScale_spec (theme : List (String × String)) (s : RampSpec)
    (pal : List (String × String)) (base target : String)
    (hb : theme.lookup s.baseRef = some base)
    (ht : theme.lookup s.targetRef = some target)
    (hsome : ∀ st ∈ s.stops, (stopEntry s.prefixName base target st).isSome)
    (hfresh : ∀ e ∈ scaleEntries theme s, e.1 ∉ keysOf pal)
    (hnd : ((scaleEntries theme s).map Prod.fst).Nodup) :
    applyScale theme pal s = .ok (pal ++ scaleEntries theme s) := by
  have hsc : scaleEntries theme s =
      s.stops.filterMap (stopEntry s.prefixName base target) := by
    simp [scaleEntries, hb, ht]
  rw [hsc] at hfresh hnd
  unfold applyScale
  rw [hb, ht, hsc]
  exact stops_fold_spec s.prefixName base target s.stops pal hsome hfresh hnd

theorem ramp_go (theme : List (String × String)) (scales : List RampSpec) :
    ∀ acc : List (String × String),
    (∀ s ∈ scales, ∃ base target,
        theme.lookup s.baseRef = some base ∧ theme.lookup s.targetRef = some target ∧
        ∀ st ∈ s.stops, (stopEntry s.prefixName base target st).isSome) →
    (∀ s ∈ scales, ∀ e ∈ scaleEntries theme s, e.1 ∉ keysOf acc) →
    ((rampEntries scales theme).map Prod.fst).Nodup →
    scales.foldlM (applyScale theme) acc = .ok (acc ++ rampEntries scales theme) := by
  induction scales with
  | nil => intro acc _ _ _; simp only [rampEntries, List.flatMap_nil, List.append_nil]; rfl
  | cons s scales ih =>
      intro acc hres hfresh hnd
      simp only [rampEntries, List.flatMap_cons, List.map_append, List.nodup_append] at hnd
      obtain ⟨hnd1, hnd2, hdisj⟩ := hnd
      obtain ⟨base, target, hb, ht, hsome⟩ := hres s (by simp)
      have hstep := applyScale_spec theme s acc base target hb ht hsome (hfresh s (by simp)) hnd1
      simp only [List.foldlM_cons, hstep, exceptBindOk]
      rw [ih (acc ++ scaleEntries theme s)
        (fun x hx => hres x (List.mem_cons_of_mem _ hx)) ?fresh hnd2]
      · simp [rampEntries, List.flatMap_cons, List.append_assoc]
      case fresh =>
        intro x hx e he
        have h1 : e.1 ∉ keysOf acc := hfresh x (List.mem_cons_of_mem _ hx) e he
        have h2 : e.1 ∉ (scaleEntries theme s).map Prod.fst := by
          intro hmem
          refine hdisj hmem (List.mem_map.mpr ⟨e, ?x, rfl⟩)
          exact List.mem_flatMap.mpr ⟨x, hx, he⟩
        simp only [keysOf, List.map_append, List.mem_append] at h1 h2 ⊢
        rintro (hy | hy)
        · exact h1 hy
        · exact h2 hy

/-- Where every ramp reference resolves, every stop's `mix` succeeds, and
the derived names are fresh and mutually distinct, the ramp phase appends
exactly the derived entries to the seed dict. -/
theorem rampPhase_spec (scales : List RampSpec) (theme : List (String × String))
    (hres : ∀ s ∈ scales, ∃ base target,
        theme.lookup s.baseRef = some base ∧ theme.lookup s.targetRef = some target ∧
        ∀ st ∈ s.stops, (stopEntry s.prefixName base target st).isSome)
    (hfresh : ∀ s ∈ scales, ∀ e ∈ scaleEntries theme s, e.1 ∉ keysOf theme)
    (hnd : ((rampEntries scales theme).map Prod.fst).Nodup) :
    rampPhase scales theme = .ok (theme ++ rampEntries scales theme) :=
  ramp_go theme scales theme hres hfresh hnd

/-- Combined characterization of `build_palette` under the freshness
hypotheses of both phases. -/
theorem build_palette_spec (scales : List RampSpec) (theme : List (String × String))
    (hres : ∀ s ∈ scales, ∃ base target,
        theme.lookup s.baseRef = some base ∧ theme.lookup s.targetRef = some target ∧
        ∀ st ∈ s.stops, (stopEntry s.prefixName base target st).isSome)
    (hfresh : ∀ s ∈ scales, ∀ e ∈ scaleEntries theme s, e.1 ∉ keysOf theme)
    (hnd : ((rampEntries scales theme).map Prod.fst).Nodup)
    (hparse : ∀ q ∈ theme ++ rampEntries scales theme,
        isColorVal q.2 = true → (hex_to_rgb q.2).isSome)
    (hfresh2 : ∀ q ∈ theme ++ rampEntries scales theme, ∀ e ∈ genFor q,
        e.1 ∉ keysOf (theme ++ rampEntries scales theme))
    (hnd2 : (((theme ++ rampEntries scales theme).flatMap genFor).map Prod.fst).Nodup) :
    build_palette scales theme =
      .ok ((theme ++ rampEntries scales theme) ++
        (theme ++ rampEntries scales theme).flatMap genFor) := by
  unfold build_palette
  rw [rampPhase_spec scales theme hres ?f1 hnd]
  · exact opacityPhase_spec _ hparse hfresh2 hnd2
  case f1 =>
    intro s hs e he
    have h := hfresh s hs e he
    exact h

theorem string_ext {a b : String} (h : a.data = b.data) : a = b := by
  cases a; cases b
  simp only at h
  rw [h]

/-! ## Distinctness of generated opacity-variant names

`genName` is injective (jointly in the token name and the percentage) on
the percentages of `opSteps`: the suffix after the dash it appends is
either two or three characters, the three-character form is `100`, and a
two-character suffix preceded by a dash cannot overlap it.  Hence the
opacity variants of a key-distinct palette have pairwise-distinct
names. -/
theorem opSteps_nodup : opSteps.Nodup := by decide

theorem pad2_len : ∀ p ∈ opSteps, (pad2 p).data.length = if p = 100 then 3 else 2 := by
  decide

theorem pad2_inj : ∀ p ∈ opSteps, ∀ q ∈ opSteps, pad2 p = pad2 q → p = q := by decide

theorem genName_data (n : String) (p : Nat) :
    (genName n p).data = (n.data ++ ['-']) ++ (pad2 p).data := by
  cases n
  rfl

theorem genName_inj {n1 n2 : String} {p1 p2 : Nat}
    (h1 : p1 ∈ opSteps) (h2 : p2 ∈ opSteps)
    (heq : genName n1 p1 = genName n2 p2) : n1 = n2 ∧ p1 = p2 := by
  have hd : (n1.data ++ ['-']) ++ (pad2 p1).data =
      (n2.data ++ ['-']) ++ (pad2 p2).data := by
    have h := congrArg String.data heq
    rwa [genName_data, genName_data] at h
  have hl1 := pad2_len p1 h1
  have hl2 := pad2_len p2 h2
  have h100 : (pad2 100).data = ['1', '0', '0'] := by decide
  by_cases e1 : p1 = 100 <;> by_cases e2 : p2 = 100
  · subst e1; subst e2
    obtain ⟨ha, _⟩ := List.append_inj' hd rfl
    obtain ⟨hb, _⟩ := List.append_inj' ha rfl
    exact ⟨string_ext hb, rfl⟩
  · exfalso
    subst e1
    rw [if_neg e2] at hl2
    obtain ⟨c1, c2, hc⟩ := List.length_eq_two.mp hl2
    rw [h100, hc] at hd
    have hassoc : (n1.data ++ ['-']) ++ ['1', '0', '0'] =
        ((n1.data ++ ['-']) ++ ['1']) ++ ['0', '0'] := by
      simp [List.append_assoc]
    rw [hassoc] at hd
    obtain ⟨ha, _⟩ := List.append_inj' hd rfl
    obtain ⟨_, hb⟩ := List.append_inj' ha rfl
    exact absurd (List.cons.inj hb).1 (by decide)
  · exfalso
    subst e2
    rw [if_neg e1] at hl1
    obtain ⟨c1, c2, hc⟩ := List.length_eq_two.mp hl1
    rw [h100, hc] at hd
    have hassoc : (n2.data ++ ['-']) ++ ['1', '0', '0'] =
        ((n2.data ++ ['-']) ++ ['1']) ++ ['0', '0'] := by
      simp [List.append_assoc]
    rw [hassoc] at hd
    obtain ⟨ha, _⟩ := List.append_inj' hd rfl
    obtain ⟨_, hb⟩ := List.append_inj' ha rfl
    exact absurd (List.cons.inj hb).1 (by decide)
  · rw [if_neg e1] at hl1
    rw [if_neg e2] at hl2
    obtain ⟨ha, hb⟩ := List.append_inj' hd (by rw [hl1, hl2])
    obtain ⟨hc, _⟩ := List.append_inj' ha rfl
    exact ⟨string_ext hc, pad2_inj p1 h1 p2 h2 (string_ext hb)⟩

theorem genFor_names (q : String × String) {x : String}
    (hx : x ∈ (genFor q).map Prod.fst) : ∃ p ∈ opSteps, x = genName q.1 p := by
  unfold genFor at hx
  by_cases hc : isColorVal q.2 = true
  · rw [if_pos hc] at hx
    match hr : hex_to_rgb q.2 with
    | some (r, g, b) =>
        rw [hr] at hx
        simp only [List.map_map, List.mem_map, Function.comp] at hx
        obtain ⟨p, hp, hgp⟩ := hx
        exact ⟨p, hp, hgp.symm⟩
    | none =>
        rw [hr] at hx
        simp at hx
  · rw [if_neg hc] at hx
    simp at hx

theorem genFor_names_nodup (q : String × String) :
    ((genFor q).map Prod.fst).Nodup := by
  unfold genFor
  by_cases hc : isColorVal q.2 = true
  · rw [if_pos hc]
    match hr : hex_to_rgb q.2 with
    | some (r, g, b) =>
        simp only [List.map_map, Function.comp]
        refine List.Nodup.map_on ?inj opSteps_nodup
        intro p1 h1 p2 h2 hx
        exact (genName_inj h1 h2 hx).2
    | none => simp
  · rw [if_neg hc]
    simp

theorem flatMap_names (pal : List (String × String)) {x : String}
    (hx : x ∈ (pal.flatMap genFor).map Prod.fst) :
    ∃ q ∈ pal, ∃ p ∈ opSteps, x = genName q.1 p := by
  simp only [List.mem_map, List.mem_flatMap] at hx
  obtain ⟨e, ⟨q, hq, he⟩, hex⟩ := hx
  obtain ⟨p, hp, hgp⟩ := genFor_names q (List.mem_map.mpr ⟨e, he, hex⟩)
  exact ⟨q, hq, p, hp, hgp⟩

/-- The names of all opacity variants generated from a palette with
pairwise-distinct keys are pairwise distinct. -/
theorem flatMap_genFor_nodup (pal : List (String × String))
    (hnd : (keysOf pal).Nodup) :
    ((pal.flatMap genFor).map Prod.fst).Nodup := by
  induction pal with
  | nil => simp
  | cons q pal ih =>
      simp only [keysOf, List.map_cons, List.nodup_cons] at hnd
      simp only [List.flatMap_cons, List.map_append]
      rw [List.nodup_append]
      refine ⟨genFor_names_nodup q, ih hnd.2, ?disj⟩
      intro x hx hx2
      obtain ⟨p, hp, rfl⟩ := genFor_names q hx
      obtain ⟨q2, hq2, p2, hp2, heq⟩ := flatMap_names pal hx2
      have hinj := genName_inj hp hp2 heq
      exact hnd.1 (hinj.1 ▸ List.mem_map.mpr ⟨q2, hq2, rfl⟩)

/-- The ramp phase of each configured theme computes exactly its
pre-expansion palette. -/
theorem midDark_eq :
    darkRedSeeds ++ rampEntries DERIVED_SCALES darkRedSeeds = midDark := by decide

theorem midSemi_eq :
    semiSkySeeds ++ rampEntries DERIVED_SCALES semiSkySeeds = midSemi := by decide

theorem midSand_eq :
    lightSandSeeds ++ rampEntries DERIVED_SCALES lightSandSeeds = midSand := by decide

/-! ## Per-theme facts

For each configured theme: its pre-expansion keys are pairwise distinct,
every color value parses, every opacity-variant name is fresh, and the
two phases compute exactly the characterized palettes. -/
theorem midDark_keys_nodup : (keysOf midDark).Nodup := by decide

theorem midDark_parse : ∀ q ∈ midDark, isColorVal q.2 = true → (hex_to_rgb q.2).isSome := by
  decide

theorem midDark_fresh : ∀ q ∈ midDark, ∀ e ∈ genFor q, e.1 ∉ keysOf midDark := by decide

theorem midSemi_keys_nodup : (keysOf midSemi).Nodup := by decide

theorem midSemi_parse : ∀ q ∈ midSemi, isColorVal q.2 = true → (hex_to_rgb q.2).isSome := by
  decide

theorem midSemi_fresh : ∀ q ∈ midSemi, ∀ e ∈ genFor q, e.1 ∉ keysOf midSemi := by decide

theorem midSand_keys_nodup : (keysOf midSand).Nodup := by decide

theorem midSand_parse : ∀ q ∈ midSand, isColorVal q.2 = true → (hex_to_rgb q.2).isSome := by
  decide

theorem midSand_fresh : ∀ q ∈ midSand, ∀ e ∈ genFor q, e.1 ∉ keysOf midSand := by decide

theorem ramp_dark : rampPhase DERIVED_SCALES darkRedSeeds = .ok midDark := by
  have h := rampPhase_spec DERIVED_SCALES darkRedSeeds ?hres (by decide) (by decide)
  · rw [midDark_eq] at h
    exact h
  case hres =>
    intro s hs
    fin_cases hs
    · exact ⟨"#b33831", "#45293f", by decide, by decide, by decide⟩
    · exact ⟨"#6e2727", "#45293f", by decide, by decide, by decide⟩
    · exact ⟨"#b33831", "#ffffff", by decide, by decide, by decide⟩
    · exact ⟨"#6e2727", "#ffffff", by decide, by decide, by decide⟩

theorem ramp_semi : rampPhase DERIVED_SCALES semiSkySeeds = .ok midSemi := by
  have h := rampPhase_spec DERIVED_SCALES semiSkySeeds ?hres (by decide) (by decide)
  · rw [midSemi_eq] at h
    exact h
  case hres =>
    intro s hs
    fin_cases hs
    · exact ⟨"#8fd3ff", "#2e222f", by decide, by decide, by decide⟩
    · exact ⟨"#4d9be6", "#2e222f", by decide, by decide, by decide⟩
    · exact ⟨"#8fd3ff", "#ffffff", by decide, by decide, by decide⟩
    · exact ⟨"#4d9be6", "#ffffff", by decide, by decide, by decide⟩

theorem ramp_sand : rampPhase DERIVED_SCALES lightSandSeeds = .ok midSand := by
  have h := rampPhase_spec DERIVED_SCALES lightSandSeeds ?hres (by decide) (by decide)
  · rw [midSand_eq] at h
    exact h
  case hres =>
    intro s hs
    fin_cases hs
    · exact ⟨"#c7dcd0", "#ffffff", by decide, by decide, by decide⟩
    · exact ⟨"#ab947a", "#ffffff", by decide, by decide, by decide⟩
    · exact ⟨"#c7dcd0", "#3e3546", by decide, by decide, by decide⟩
    · exact ⟨"#ab947a", "#3e3546", by decide, by decide, by decide⟩

theorem build_dark : build_palette DERIVED_SCALES darkRedSeeds = .ok darkPalette := by
  unfold build_palette
  rw [ramp_dark, exceptBindOk]
  exact opacityPhase_spec midDark midDark_parse midDark_fresh
    (flatMap_genFor_nodup midDark midDark_keys_nodup)

theorem build_semi : build_palette DERIVED_SCALES semiSkySeeds = .ok semiPalette := by
  unfold build_palette
  rw [ramp_semi, exceptBindOk]
  exact opacityPhase_spec midSemi midSemi_parse midSemi_fresh
    (flatMap_genFor_nodup midSemi midSemi_keys_nodup)

theorem build_sand : build_palette DERIVED_SCALES lightSandSeeds = .ok sandPalette := by
  unfold build_palette
  rw [ramp_sand, exceptBindOk]
  exact opacityPhase_spec midSand midSand_parse midSand_fresh
    (flatMap_genFor_nodup midSand midSand_keys_nodup)

/-- Key distinctness survives opacity expansion. -/
theorem palette_keys_nodup (mid : List (String × String))
    (h1 : (keysOf mid).Nodup)
    (h2 : ∀ q ∈ mid, ∀ e ∈ genFor q, e.1 ∉ keysOf mid) :
    (keysOf (mid ++ mid.flatMap genFor)).Nodup := by
  unfold keysOf at h1 ⊢
  rw [List.map_append, List.nodup_append]
  refine ⟨h1, flatMap_genFor_nodup mid (by exact h1), ?disj⟩
  intro x hx hx2
  obtain ⟨e, he, hex⟩ := List.mem_map.mp hx2
  obtain ⟨q, hq, heq⟩ := List.mem_flatMap.mp he
  have := h2 q hq e heq
  rw [hex] at this
  exact this hx

/-! ## The string order

Facts about `charsLt`/`strLe` needed to reason about `sorted(...)`:
irreflexivity, transitivity, totality, and strictness on distinct
strings. -/
theorem charNat_inj {a b : Char} (h : a.toNat = b.toNat) : a = b :=
  Char.eq_of_val_eq (UInt32.eq_of_val_eq (Fin.eq_of_val_eq h))

theorem charsLt_irrefl : ∀ as : List Char, charsLt as as = false := by
  intro as
  induction as with
  | nil => rfl
  | cons a as ih => simp [charsLt, ih]

theorem charsLt_trans : ∀ as bs cs : List Char,
    charsLt as bs = true → charsLt bs cs = true → charsLt as cs = true := by
  intro as
  induction as with
  | nil =>
      intro bs cs h1 h2
      cases bs with
      | nil => exact h2
      | cons b bs =>
          cases cs with
          | nil => simp [charsLt] at h2
          | cons c cs => rfl
  | cons a as ih =>
      intro bs cs h1 h2
      cases bs with
      | nil => simp [charsLt] at h1
      | cons b bs =>
          cases cs with
          | nil => simp [charsLt] at h2
          | cons c cs =>
              simp only [charsLt] at h1 h2 ⊢
              rcases Nat.lt_trichotomy a.toNat b.toNat with hab | hab | hab
              · rcases Nat.lt_trichotomy b.toNat c.toNat with hbc | hbc | hbc
                · simp [Nat.lt_trans hab hbc]
                · rw [← hbc]; simp [hab]
                · rw [if_neg (Nat.lt_asymm hbc), if_pos hbc] at h2
                  cases h2
              · rcases Nat.lt_trichotomy b.toNat c.toNat with hbc | hbc | hbc
                · rw [hab]; simp [hbc]
                · rw [hab, hbc]
                  simp only [Nat.lt_irrefl, if_false]
                  rw [hab] at h1
                  rw [hbc] at h2
                  simp only [Nat.lt_irrefl, if_false] at h1 h2
                  exact ih bs cs h1 h2
                · rw [if_neg (Nat.lt_asymm hbc), if_pos hbc] at h2
                  cases h2
              · rw [if_neg (Nat.lt_asymm hab), if_pos hab] at h1
                cases h1

theorem charsLt_total : ∀ as bs : List Char,
    charsLt as bs = true ∨ charsLt bs as = true ∨ as = bs := by
  intro as
  induction as with
  | nil =>
      intro bs
      cases bs with
      | nil => exact Or.inr (Or.inr rfl)
      | cons b bs => exact Or.inl rfl
  | cons a as ih =>
      intro bs
      cases bs with
      | nil => exact Or.inr (Or.inl rfl)
      | cons b bs =>
          rcases Nat.lt_trichotomy a.toNat b.toNat with hab | hab | hab
          · exact Or.inl (by simp [charsLt, hab])
          · have hba : a = b := charNat_inj hab
            subst hba
            rcases ih bs with h | h | h
            · exact Or.inl (by simp [charsLt, h])
            · exact Or.inr (Or.inl (by simp [charsLt, h]))
            · exact Or.inr (Or.inr (by rw [h]))
          · exact Or.inr (Or.inl (by simp [charsLt, hab]))

theorem strLe_total (a b : String) : strLe a b = true ∨ strLe b a = true := by
  rcases charsLt_total a.data b.data with h | h | h
  · exact Or.inl (by simp [strLe, strLt, h])
  · exact Or.inr (by simp [strLe, strLt, h])
  · exact Or.inl (by simp [strLe, string_ext h])

theorem strLe_trans {a b c : String} (h1 : strLe a b = true) (h2 : strLe b c = true) :
    strLe a c = true := by
  simp only [strLe, Bool.or_eq_true, beq_iff_eq] at h1 h2 ⊢
  rcases h1 with h1 | h1
  · rcases h2 with h2 | h2
    · exact Or.inl (charsLt_trans _ _ _ h1 h2)
    · subst h2; exact Or.inl h1
  · subst h1; exact h2

theorem strLt_of_strLe_of_ne {a b : String} (h : strLe a b = true) (hne : a ≠ b) :
    strLt a b = true := by
  simp only [strLe, Bool.or_eq_true, beq_iff_eq] at h
  rcases h with h | h
  · exact h
  · exact absurd h hne

theorem strLt_trans {a b c : String} (h1 : strLt a b = true) (h2 : strLt b c = true) :
    strLt a c = true :=
  charsLt_trans _ _ _ h1 h2

/-- The emitted entry list of any block is a permutation of the palette. -/
theorem sortedItems_perm (pal : List (String × String)) :
    (sortedItems pal).Perm pal :=
  List.perm_insertionSort itemLe pal

/-- On a palette with pairwise-distinct keys, the emitted entry list is
strictly ascending in the codepoint-lexicographic order of token names. -/
theorem sortedItems_chain (pal : List (String × String))
    (hnd : (keysOf pal).Nodup) :
    List.Chain' (fun n m => strLt n m = true) ((sortedItems pal).map Prod.fst) := by
  haveI : IsTotal (String × String) itemLe := ⟨fun a b => strLe_total a.1 b.1⟩
  haveI : IsTrans (String × String) itemLe := ⟨fun _ _ _ hab hbc => strLe_trans hab hbc⟩
  have hsorted : (sortedItems pal).Sorted itemLe :=
    List.sorted_insertionSort itemLe pal
  have hperm : ((sortedItems pal).map Prod.fst).Perm (keysOf pal) :=
    (sortedItems_perm pal).map Prod.fst
  have hnd2 : ((sortedItems pal).map Prod.fst).Nodup := hperm.nodup_iff.mpr hnd
  have hle : ((sortedItems pal).map Prod.fst).Pairwise (fun n m => strLe n m = true) := by
    rw [List.pairwise_map]
    exact hsorted
  have hlt : ((sortedItems pal).map Prod.fst).Pairwise (fun n m => strLt n m = true) := by
    have hcomb := hle.and hnd2
    exact hcomb.imp (fun h => strLt_of_strLe_of_ne h.1 h.2)
  exact hlt.chain'

theorem palettesOf_THEMES : palettesOf THEMES = .ok builtThemes := by
  unfold palettesOf THEMES List.mapM
  simp only [List.mapM.loop, build_dark, build_semi, build_sand, Except.map,
    exceptBindOk]
  rfl

/-- If any element of the list maps to an error, `mapM` errors. -/
theorem mapM_loop_error {α β : Type} (f : α → Except String β) :
    ∀ (l : List α) (acc : List β) (p : α), p ∈ l → (∀ y, f p ≠ .ok y) →
    ∃ e, List.mapM.loop f l acc = .error e := by
  intro l
  induction l with
  | nil =>
      intro acc p hp
      cases hp
  | cons a l ih =>
      intro acc p hp hf
      match hfa : f a with
      | .error e =>
          refine ⟨e, ?_⟩
          simp [List.mapM.loop, hfa]
          rfl
      | .ok b =>
          rcases List.mem_cons.mp hp with rfl | hp2
          · exact absurd hfa (hf b)
          · obtain ⟨e, he⟩ := ih (b :: acc) p hp2 hf
            refine ⟨e, ?_⟩
            simp only [List.mapM.loop, hfa, exceptBindOk]
            exact he

/-- In a key-distinct association list, membership determines lookup. -/
theorem lookup_of_mem_nodup :
    ∀ (d : List (String × String)) (n v : String),
    (keysOf d).Nodup → (n, v) ∈ d → d.lookup n = some v := by
  intro d
  induction d with
  | nil =>
      intro n v _ hm
      cases hm
  | cons q d ih =>
      intro n v hnd hm
      simp only [keysOf, List.map_cons, List.nodup_cons] at hnd
      rcases List.mem_cons.mp hm with rfl | hm2
      · simp [List.lookup]
      · have hne : n ≠ q.1 := by
          intro heq
          exact hnd.1 (heq ▸ List.mem_map.mpr ⟨(n, v), hm2, rfl⟩)
        have : (n == q.1) = false := beq_eq_false_iff_ne.mpr hne
        simp only [List.lookup, this]
        exact ih n v hnd.2 hm2

/-- A successful lookup in the left part of an append wins. -/
theorem lookup_append_left :
    ∀ (d1 d2 : List (String × String)) (n v : String),
    d1.lookup n = some v → (d1 ++ d2).lookup n = some v := by
  intro d1
  induction d1 with
  | nil =>
      intro d2 n v h
      cases h
  | cons q d1 ih =>
      intro d2 n v h
      simp only [List.lookup, List.cons_append] at h ⊢
      match hb : n == q.1 with
      | true => rwa [hb] at h
      | false =>
          rw [hb] at h
          exact ih d2 n v h

theorem hexChar_isHex : ∀ c ∈ hexDigitChars, isHexDigitChar c = true := by decide

theorem hexChar_ne_hash : ∀ c ∈ hexDigitChars, c ≠ '#' := by decide

theorem hexChar_val_lt : ∀ c ∈ hexDigitChars, hexDigitVal c < 16 := by decide

theorem hexChar_upper : ∀ c ∈ hexDigitChars, hexUpperDigit (hexDigitVal c) = c.toUpper := by
  decide

theorem pyIntHex_pair (c1 c2 : Char) (h1 : c1 ∈ hexDigitChars) (h2 : c2 ∈ hexDigitChars) :
    pyIntHex [c1, c2] = some (16 * hexDigitVal c1 + hexDigitVal c2) := by
  unfold pyIntHex
  rw [if_pos]
  · congr 1
    simp only [List.foldl]
    ring
  · refine ⟨by simp, ?_⟩
    simp [List.all_cons, hexChar_isHex c1 h1, hexChar_isHex c2 h2]

theorem hexAux_small (fuel m : Nat) (acc : List Char) (hf : 0 < fuel) (hm : m < 16) :
    hexDigitsUpperAux fuel m acc = hexUpperDigit m :: acc := by
  cases fuel with
  | zero => cases hf
  | succ f => simp [hexDigitsUpperAux, hm]

theorem hexDigitsUpper_pair (a b : Nat) (ha : a < 16) (hb : b < 16) (hpos : 0 < a) :
    hexDigitsUpper (16 * a + b) = [hexUpperDigit a, hexUpperDigit b] := by
  unfold hexDigitsUpper
  have hge : ¬ (16 * a + b < 16) := by omega
  simp only [hexDigitsUpperAux, hge, if_false]
  have hdiv : (16 * a + b) / 16 = a := by omega
  have hmod : (16 * a + b) % 16 = b := by omega
  rw [hdiv, hmod]
  exact hexAux_small _ _ _ (by omega) ha

theorem hexDigitsUpper_single (b : Nat) (hb : b < 16) :
    hexDigitsUpper b = [hexUpperDigit b] := by
  unfold hexDigitsUpper
  exact hexAux_small _ _ _ (by omega) hb

theorem fmt_pair (a b : Nat) (ha : a < 16) (hb : b < 16) :
    pyFormat02X ((16 * a + b : Nat) : Int) = String.mk [hexUpperDigit a, hexUpperDigit b] := by
  have hneg : ¬ (((16 * a + b : Nat) : Int) < 0) :=
    Int.not_lt.mpr (Int.natCast_nonneg _)
  simp only [pyFormat02X, hneg, if_false, Int.natAbs_ofNat]
  by_cases hz : a = 0
  · subst hz
    rw [show 16 * 0 + b = b by omega]
    rw [hexDigitsUpper_single b hb]
    simp only [List.length_cons, List.length_nil, List.nil_append]
    rw [show hexUpperDigit 0 = '0' from rfl]
    rfl
  · rw [hexDigitsUpper_pair a b ha hb (Nat.pos_of_ne_zero hz)]
    rfl

theorem fmt_hexChars (c1 c2 : Char) (h1 : c1 ∈ hexDigitChars) (h2 : c2 ∈ hexDigitChars) :
    pyFormat02X ((16 * hexDigitVal c1 + hexDigitVal c2 : Nat) : Int) =
      String.mk [c1.toUpper, c2.toUpper] := by
  rw [fmt_pair _ _ (hexChar_val_lt c1 h1) (hexChar_val_lt c2 h2),
    hexChar_upper c1 h1, hexChar_upper c2 h2]

theorem hex_to_rgb_hash (l : List Char) :
    hex_to_rgb (String.mk ('#' :: l)) = hex_to_rgb (String.mk l) := by
  simp [hex_to_rgb, List.dropWhile_cons]

theorem hex_to_rgb_six (c1 c2 c3 c4 c5 c6 : Char)
    (h1 : c1 ∈ hexDigitChars) (h2 : c2 ∈ hexDigitChars) (h3 : c3 ∈ hexDigitChars)
    (h4 : c4 ∈ hexDigitChars) (h5 : c5 ∈ hexDigitChars) (h6 : c6 ∈ hexDigitChars) :
    hex_to_rgb (String.mk [c1, c2, c3, c4, c5, c6]) =
      some (((16 * hexDigitVal c1 + hexDigitVal c2 : Nat) : Int),
            ((16 * hexDigitVal c3 + hexDigitVal c4 : Nat) : Int),
            ((16 * hexDigitVal c5 + hexDigitVal c6 : Nat) : Int)) := by
  have hdrop : List.dropWhile (fun x => decide (x = '#')) [c1, c2, c3, c4, c5, c6] =
      [c1, c2, c3, c4, c5, c6] := by
    rw [List.dropWhile_cons]
    simp [decide_eq_false (hexChar_ne_hash c1 h1)]
  simp only [hex_to_rgb, hdrop]
  have hs1 : pySlice [c1, c2, c3, c4, c5, c6] 0 2 = [c1, c2] := rfl
  have hs2 : pySlice [c1, c2, c3, c4, c5, c6] 2 2 = [c3, c4] := rfl
  have hs3 : pySlice [c1, c2, c3, c4, c5, c6] 4 2 = [c5, c6] := rfl
  rw [hs1, hs2, hs3, pyIntHex_pair c1 c2 h1 h2, pyIntHex_pair c3 c4 h3 h4,
    pyIntHex_pair c5 c6 h5 h6]

/-- C1: for a theme whose seeds bind the base to `#000000` and the target
to `#FFFFFF`, the RampSpec stop `(500, 0.5)` on prefix `--x` derives
token `--x-500` bound to `#808080` (each channel `round(0+255·0.5) =
128`), and opacity expansion derives `--x-500-50` bound exactly to
`rgb(128 128 128 / 0.50)`. -/
theorem c1_end_to_end :
    build_palette c1Scales c1Theme = .ok c1Palette ∧
    mix "#000000" "#FFFFFF" ⟨1, 2⟩ = some "#808080" ∧
    c1Palette.lookup "--x-500" = some "#808080" ∧
    c1Palette.lookup "--x-500-50" = some "rgb(128 128 128 / 0.50)" := by
  refine ⟨?bld, by decide, by decide, by decide⟩
  case bld =>
    have h := build_palette_spec c1Scales c1Theme ?hres (by decide) (by decide)
      (by decide) (by decide) (flatMap_genFor_nodup _ (by decide))
    · exact h
    case hres =>
      intro s hs
      fin_cases hs
      exact ⟨"#000000", "#FFFFFF", by decide, by decide, by decide⟩

/-- The expansion output gains `20·N` entries when every generated name
is fresh. -/
theorem flatMap_genFor_length (pal : List (String × String))
    (hparse : ∀ q ∈ pal, isColorVal q.2 = true → (hex_to_rgb q.2).isSome) :
    (pal.flatMap genFor).length = 20 * pal.countP (fun q => isColorVal q.2) := by
  induction pal with
  | nil => rfl
  | cons q pal ih =>
      rw [List.flatMap_cons, List.length_append, List.countP_cons]
      rw [ih (fun p hp => hparse p (List.mem_cons_of_mem _ hp))]
      by_cases hc : isColorVal q.2 = true
      · obtain ⟨⟨r, g, b⟩, hr⟩ := Option.isSome_iff_exists.mp (hparse q (by simp) hc)
        have hlen : (genFor q).length = 20 := by
          simp [genFor, hc, hr, opSteps]
        rw [hlen, hc]
        simp only [if_true]
        omega
      · have hnil : genFor q = [] := by simp [genFor, hc]
        rw [hnil]
        simp only [Bool.not_eq_true] at hc
        rw [hc]
        simp

/-- C2 counterexample: on the token set `{--a ↦ #000000, --a-05 ↦
#000000}` (two expandable tokens, so the claim predicts exactly 40 new
tokens) expansion produces only 39 new names — the variant `--a-05` of
`--a` collides with the pre-existing token `--a-05` and overwrites it. -/
theorem c2_counterexample :
    ((opacityPhase [("--a", "#000000"), ("--a-05", "#000000")]).toOption.getD
      []).length = 41 ∧
    ([("--a", "#000000"), ("--a-05", "#000000")].countP
      (fun q => isColorVal q.2)) = 2 ∧
    (opacityPhase [("--a", "#000000"), ("--a-05", "#000000")]).toOption.isSome = true ∧
    ((opacityPhase [("--a", "#000000"), ("--a-05", "#000000")]).toOption.getD
      []).lookup "--a-05" = some "rgb(0 0 0 / 0.05)" ∧
    (41 : Nat) ≠ 2 + 20 * 2 := by decide

/-- C2 amended: provided every generated name `{token}-{p:02d}` is fresh
(none equals an existing token name) and the generated names are mutually
distinct, expansion adds exactly `20·N` tokens for the `N` expandable
tokens, named `{token}-{p:02d}` for the twenty steps `5,10,…,100`, each
bound to `rgb(R G B / A)` with `A` the two-decimal rendering of `p/100`;
without the freshness proviso a colliding name is overwritten instead
(see the counterexample). -/
theorem c2_amended (pal : List (String × String))
    (hparse : ∀ q ∈ pal, isColorVal q.2 = true → (hex_to_rgb q.2).isSome)
    (hfresh : ∀ q ∈ pal, ∀ e ∈ genFor q, e.1 ∉ keysOf pal)
    (hnd : ((pal.flatMap genFor).map Prod.fst).Nodup) :
    opacityPhase pal = .ok (pal ++ pal.flatMap genFor) ∧
    (pal ++ pal.flatMap genFor).length =
      pal.length + 20 * pal.countP (fun q => isColorVal q.2) ∧
    (∀ q ∈ pal, ∀ r g b : Int, isColorVal q.2 = true → hex_to_rgb q.2 = some (r, g, b) →
      genFor q = opSteps.map (fun pct => (genName q.1 pct, rgbLine r g b pct))) ∧
    opSteps = [5, 10, 15, 20, 25, 30, 35, 40, 45, 50,
               55, 60, 65, 70, 75, 80, 85, 90, 95, 100] ∧
    genName "--x" 5 = "--x-05" ∧ genName "--x" 100 = "--x-100" ∧
    alphaStr 5 = "0.05" ∧ alphaStr 100 = "1.00" ∧
    rgbLine 128 128 128 50 = "rgb(128 128 128 / 0.50)" := by
  refine ⟨opacityPhase_spec pal hparse hfresh hnd, ?len, ?gf,
    by decide, by decide, by decide, by decide, by decide, by decide⟩
  case len => rw [List.length_append, flatMap_genFor_length pal hparse]
  case gf =>
    intro q hq r g b hc hr
    simp [genFor, hc, hr]

/-- Witness for the amended C2 at a two-token set with one expandable
token: expansion appends exactly `20·1` variants. -/
theorem c2_witness :
    opacityPhase [("--a", "#010203"), ("--r", "4px")] =
      .ok ([("--a", "#010203"), ("--r", "4px")] ++
        [("--a", "#010203"), ("--r", "4px")].flatMap genFor) ∧
    ([("--a", "#010203"), ("--r", "4px")] ++
      [("--a", "#010203"), ("--r", "4px")].flatMap genFor).length = 2 + 20 * 1 := by
  have h := c2_amended [("--a", "#010203"), ("--r", "4px")] (by decide) (by decide)
    (flatMap_genFor_nodup _ (by decide))
  exact ⟨h.1, h.2.1.trans (by decide)⟩

/-- C3: the typed-map emitter renders, for the designated default theme
`dark-red`, exactly the same `(token, value)` entry sequence that the
stylesheet emitter renders in its `dark-red` block — so every token of
the typed map has a character-identical value string in that block — and
within every emitted block (the three stylesheet blocks and the typed
map) the entries are in strictly ascending codepoint-lexicographic order
of token name. -/
theorem c3_emitters :
    palettesOf THEMES = .ok builtThemes ∧
    builtThemes.lookup "dark-red" = some darkPalette ∧
    tsLines darkPalette =
      "// Generated – do not edit" ::
        "export const COLOR_VARS: Record<string, string> = \x7b" ::
          ((sortedItems darkPalette).map tsEntryLine ++ ["\x7d;\n"]) ∧
    cssBlockLines "dark-red" darkPalette =
      ".theme-dark-red \x7b" ::
        ((sortedItems darkPalette).map cssDeclLine ++ ["\x7d", ""]) ∧
    List.Chain' (fun n m => strLt n m = true) ((sortedItems darkPalette).map Prod.fst) ∧
    List.Chain' (fun n m => strLt n m = true) ((sortedItems semiPalette).map Prod.fst) ∧
    List.Chain' (fun n m => strLt n m = true) ((sortedItems sandPalette).map Prod.fst) := by
  refine ⟨palettesOf_THEMES, rfl, rfl, rfl, ?c1, ?c2, ?c3⟩
  case c1 =>
    exact sortedItems_chain _ (palette_keys_nodup midDark midDark_keys_nodup midDark_fresh)
  case c2 =>
    exact sortedItems_chain _ (palette_keys_nodup midSemi midSemi_keys_nodup midSemi_fresh)
  case c3 =>
    exact sortedItems_chain _ (palette_keys_nodup midSand midSand_keys_nodup midSand_fresh)

/-- C4 counterexample: a valid bare (unprefixed) 6-digit hex input
round-trips to `#AABBCC`, which is not `uppercase("aabbcc")` — re-encoding
always prepends `#`. -/
theorem c4_counterexample :
    (hex_to_rgb "aabbcc").map rgb_to_hex = some "#AABBCC" ∧
    pyUpper "aabbcc" = "AABBCC" ∧
    ("#AABBCC" : String) ≠ "AABBCC" := by decide

/-- C4 amended: for every 6-hex-digit input bearing the optional `#`
marker, `encode(decode(h)) = uppercase(h)`; for the bare form the result
is `"#" ++ uppercase(h)` instead. -/
theorem c4_amended (c1 c2 c3 c4 c5 c6 : Char)
    (h1 : c1 ∈ hexDigitChars) (h2 : c2 ∈ hexDigitChars) (h3 : c3 ∈ hexDigitChars)
    (h4 : c4 ∈ hexDigitChars) (h5 : c5 ∈ hexDigitChars) (h6 : c6 ∈ hexDigitChars) :
    (hex_to_rgb (String.mk ['#', c1, c2, c3, c4, c5, c6])).map rgb_to_hex =
      some (pyUpper (String.mk ['#', c1, c2, c3, c4, c5, c6])) ∧
    (hex_to_rgb (String.mk [c1, c2, c3, c4, c5, c6])).map rgb_to_hex =
      some ("#" ++ pyUpper (String.mk [c1, c2, c3, c4, c5, c6])) := by
  have hsix := hex_to_rgb_six c1 c2 c3 c4 c5 c6 h1 h2 h3 h4 h5 h6
  constructor
  · rw [show String.mk ['#', c1, c2, c3, c4, c5, c6] =
      String.mk ('#' :: [c1, c2, c3, c4, c5, c6]) from rfl, hex_to_rgb_hash, hsix,
      Option.map_some']
    simp only [rgb_to_hex]
    rw [fmt_hexChars c1 c2 h1 h2, fmt_hexChars c3 c4 h3 h4, fmt_hexChars c5 c6 h5 h6]
    rfl
  · rw [hsix, Option.map_some']
    simp only [rgb_to_hex]
    rw [fmt_hexChars c1 c2 h1 h2, fmt_hexChars c3 c4 h3 h4, fmt_hexChars c5 c6 h5 h6]
    rfl

/-- Witness for the amended C4 at `#aabbcc`. -/
theorem c4_witness :
    (hex_to_rgb (String.mk ['#', 'a', 'a', 'b', 'b', 'c', 'c'])).map rgb_to_hex =
      some (pyUpper (String.mk ['#', 'a', 'a', 'b', 'b', 'c', 'c'])) :=
  (c4_amended 'a' 'a' 'b' 'b' 'c' 'c' (by decide) (by decide) (by decide)
    (by decide) (by decide) (by decide)).1

/-- A definitional unfolding of `hex_to_rgb`, used to reason about its
match. -/
theorem hex_to_rgb_def (s : String) : hex_to_rgb s =
    match pyIntHex (pySlice (s.data.dropWhile (fun x => decide (x = '#'))) 0 2),
          pyIntHex (pySlice (s.data.dropWhile (fun x => decide (x = '#'))) 2 2),
          pyIntHex (pySlice (s.data.dropWhile (fun x => decide (x = '#'))) 4 2) with
    | some r, some g, some b => some ((r : Int), (g : Int), (b : Int))
    | _, _, _ => none := rfl

/-- C5 counterexample: `#1234567` strips to seven hex digits — not
exactly six — yet decoding succeeds (with the trailing digit ignored)
instead of failing. -/
theorem c5_counterexample :
    hex_to_rgb "#1234567" = some (18, 52, 86) ∧
    "#1234567".data.dropWhile (fun x => decide (x = '#')) =
      ['1', '2', '3', '4', '5', '6', '7'] ∧
    (['1', '2', '3', '4', '5', '6', '7'] : List Char).length ≠ 6 := by decide

/-- C5 amended: on inputs consisting of hexadecimal digits (after
stripping leading `#` markers), decoding fails — with a plain parse error,
there is no dedicated `MalformedColor` — exactly when fewer than five
digits remain; five or more digits (hence in particular more than six)
are accepted, using only the first six. -/
theorem c5_amended (l : List Char) (hl : ∀ c ∈ l, c ∈ hexDigitChars) :
    (hex_to_rgb (String.mk l)).isSome = true ↔ 5 ≤ l.length := by
  have hd : (String.mk l).data.dropWhile (fun x => decide (x = '#')) = l := by
    rw [show (String.mk l).data = l from rfl]
    cases l with
    | nil => rfl
    | cons c l =>
        rw [List.dropWhile_cons]
        simp [decide_eq_false (hexChar_ne_hash c (hl c (by simp)))]
  have hall : ∀ i n : Nat, (pySlice l i n).all isHexDigitChar = true := by
    intro i n
    rw [List.all_eq_true]
    intro c hc
    refine hexChar_isHex c (hl c ?_)
    exact List.drop_subset i l (List.take_subset n _ hc)
  have hsome : ∀ i n : Nat, (pyIntHex (pySlice l i n)).isSome = true ↔
      pySlice l i n ≠ [] := by
    intro i n
    unfold pyIntHex
    by_cases he : pySlice l i n = []
    · simp [he]
    · rw [if_pos ⟨he, hall i n⟩]
      simp [he]
  rw [hex_to_rgb_def, hd]
  constructor
  · intro h
    by_contra hlen
    have hle : l.length ≤ 4 := by omega
    have h3 : pySlice l 4 2 = [] := by
      unfold pySlice
      rw [List.drop_eq_nil_iff.mpr hle]
      rfl
    have hnone : pyIntHex (pySlice l 4 2) = none := by
      rw [h3]
      rfl
    rcases hp1 : pyIntHex (pySlice l 0 2) with _ | v1 <;>
      rcases hp2 : pyIntHex (pySlice l 2 2) with _ | v2 <;>
        rw [hp1, hp2, hnone] at h <;> simp at h
  · intro h5
    have hpos : ∀ i : Nat, i < 5 → pySlice l i 2 ≠ [] := by
      intro i hi
      refine List.ne_nil_of_length_pos ?_
      have hlen : (pySlice l i 2).length = min 2 (l.length - i) := by
        simp [pySlice]
      rw [hlen]
      omega
    obtain ⟨v1, hv1⟩ := Option.isSome_iff_exists.mp
      ((hsome 0 2).mpr (hpos 0 (by omega)))
    obtain ⟨v2, hv2⟩ := Option.isSome_iff_exists.mp
      ((hsome 2 2).mpr (hpos 2 (by omega)))
    obtain ⟨v3, hv3⟩ := Option.isSome_iff_exists.mp
      ((hsome 4 2).mpr (hpos 4 (by omega)))
    rw [hv1, hv2, hv3]
    rfl

/-- Witness for the amended C5: seven hex digits are accepted. -/
theorem c5_witness :
    (hex_to_rgb (String.mk ['1', '2', '3', '4', '5', '6', '7'])).isSome = true :=
  (c5_amended ['1', '2', '3', '4', '5', '6', '7'] (by decide)).mpr (by decide)

/-- C6 counterexample: a token whose value is in the alpha-carrying
functional form is NOT skipped — the expander tries to hex-parse it and
aborts palette construction with an error. -/
theorem c6_counterexample :
    opacityPhase [("--a", "rgb(0 0 0 / 0.05)")] =
      .error "ValueError: invalid hex color rgb(0 0 0 / 0.05)" := by decide

/-- C6 amended: the expander skips exactly the tokens whose value starts
with neither `#` nor `rgb` (non-color literals), deriving no variants
from them; a value beginning `rgb(` passes the guard (it is treated as a
color), and since it cannot be hex-parsed it aborts the whole expansion
with an error rather than being skipped — in the pipeline this never
fires because no pre-expansion value has that form. -/
theorem c6_amended :
    (∀ (fp : List (String × String)) (q : String × String),
      isColorVal q.2 = false → expandStep fp q = .ok fp ∧ genFor q = []) ∧
    (∀ v : String, pyStartsWith v "rgb" = true → isColorVal v = true) ∧
    opacityPhase [("--a", "rgb(0 0 0 / 0.05)")] =
      .error "ValueError: invalid hex color rgb(0 0 0 / 0.05)" := by
  refine ⟨?skip, ?col, by decide⟩
  case skip =>
    intro fp q hc
    have hc2 : ¬ (isColorVal q.2 = true) := by simp [hc]
    constructor
    · unfold expandStep
      rw [if_neg hc2]
    · simp [genFor, hc2]
  case col =>
    intro v hv
    unfold isColorVal
    rw [hv, Bool.or_true]

/-- Witness for the amended C6: a non-color literal is skipped. -/
theorem c6_witness :
    expandStep [] ("--border-radius", "8px") = .ok [] ∧
    genFor ("--border-radius", "8px") = [] :=
  c6_amended.1 [] ("--border-radius", "8px") (by decide)

/-- C7: for every configured theme, both construction phases only add
tokens: every seed keeps its original binding in the ramp output and in
the final palette, and every pre-expansion token keeps its binding in the
final palette. -/
theorem c7_frame : ∀ p ∈ THEMES, ∃ mid,
    rampPhase DERIVED_SCALES p.2 = .ok mid ∧
    build_palette DERIVED_SCALES p.2 = .ok (mid ++ mid.flatMap genFor) ∧
    (∀ q ∈ p.2, mid.lookup q.1 = some q.2) ∧
    (∀ q ∈ p.2, (mid ++ mid.flatMap genFor).lookup q.1 = some q.2) ∧
    (∀ q ∈ mid, (mid ++ mid.flatMap genFor).lookup q.1 = some q.2) := by
  intro p hp
  fin_cases hp
  · exact ⟨midDark, ramp_dark, build_dark, by decide, by decide, by decide⟩
  · exact ⟨midSemi, ramp_semi, build_semi, by decide, by decide, by decide⟩
  · exact ⟨midSand, ramp_sand, build_sand, by decide, by decide, by decide⟩

/-- Witness for C7 at the `dark-red` theme. -/
theorem c7_witness : ∃ mid,
    rampPhase DERIVED_SCALES darkRedSeeds = .ok mid ∧
    build_palette DERIVED_SCALES darkRedSeeds = .ok (mid ++ mid.flatMap genFor) ∧
    (∀ q ∈ darkRedSeeds, mid.lookup q.1 = some q.2) ∧
    (∀ q ∈ darkRedSeeds, (mid ++ mid.flatMap genFor).lookup q.1 = some q.2) ∧
    (∀ q ∈ mid, (mid ++ mid.flatMap genFor).lookup q.1 = some q.2) :=
  c7_frame ("dark-red", darkRedSeeds) (by decide)

/-- C8 counterexample: on a suffix collision across two specs, ramp
derivation raises no error at all — it silently binds the colliding name
(to the later spec's value `#404040`, not the earlier `#808080`). -/
theorem c8_counterexample :
    rampPhase c8Scales c8Theme =
      .ok [("b", "#000000"), ("t", "#FFFFFF"), ("--x-100", "#404040")] ∧
    mix "#000000" "#FFFFFF" ⟨1, 2⟩ = some "#808080" ∧
    mix "#000000" "#FFFFFF" ⟨1, 4⟩ = some "#404040" := by decide

/-- C8 amended: a suffix collision across specs is not detected — there
is no `AmbiguousToken` error; the deriver overwrites the colliding name
in place, the spec iterated later winning. -/
theorem c8_amended (pfx : String) (sfx : Nat) (d1 d2 : Frac) (vb vt v1 v2 : String)
    (hm1 : mix vb vt ((Frac.ofInt 1).sub ((Frac.ofInt 1).sub d1)) = some v1)
    (hm2 : mix vb vt ((Frac.ofInt 1).sub ((Frac.ofInt 1).sub d2)) = some v2)
    (hn1 : pfx ++ "-" ++ toString sfx ≠ "b")
    (hn2 : pfx ++ "-" ++ toString sfx ≠ "t") :
    rampPhase [⟨pfx, "b", "t", [(sfx, d1)]⟩, ⟨pfx, "b", "t", [(sfx, d2)]⟩]
        [("b", vb), ("t", vt)] =
      .ok [("b", vb), ("t", vt), (pfx ++ "-" ++ toString sfx, v2)] := by
  have hb : (("b" : String) == pfx ++ "-" ++ toString sfx) = false :=
    beq_eq_false_iff_ne.mpr (Ne.symm hn1)
  have ht : (("t" : String) == pfx ++ "-" ++ toString sfx) = false :=
    beq_eq_false_iff_ne.mpr (Ne.symm hn2)
  have hself : ((pfx ++ "-" ++ toString sfx) == pfx ++ "-" ++ toString sfx) = true :=
    beq_self_eq_true _
  have hstop1 : applyStop pfx vb vt [("b", vb), ("t", vt)] (sfx, d1) =
      .ok [("b", vb), ("t", vt), (pfx ++ "-" ++ toString sfx, v1)] := by
    show (match mix vb vt ((Frac.ofInt 1).sub ((Frac.ofInt 1).sub d1)) with
      | some v => Except.ok (setItem [("b", vb), ("t", vt)] (pfx ++ "-" ++ toString sfx) v)
      | none => Except.error "ValueError: invalid hex color in mix") = _
    rw [hm1]
    show Except.ok (setItem [("b", vb), ("t", vt)] (pfx ++ "-" ++ toString sfx) v1) = _
    rw [setItem_fresh _ _ _ (by simp [keysOf, hn1, hn2])]
    rfl
  have hstop2 : applyStop pfx vb vt
      [("b", vb), ("t", vt), (pfx ++ "-" ++ toString sfx, v1)] (sfx, d2) =
      .ok [("b", vb), ("t", vt), (pfx ++ "-" ++ toString sfx, v2)] := by
    show (match mix vb vt ((Frac.ofInt 1).sub ((Frac.ofInt 1).sub d2)) with
      | some v => Except.ok (setItem [("b", vb), ("t", vt), (pfx ++ "-" ++ toString sfx, v1)]
          (pfx ++ "-" ++ toString sfx) v)
      | none => Except.error "ValueError: invalid hex color in mix") = _
    rw [hm2]
    show Except.ok (setItem [("b", vb), ("t", vt), (pfx ++ "-" ++ toString sfx, v1)]
      (pfx ++ "-" ++ toString sfx) v2) = _
    unfold setItem
    rw [if_pos (by simp [List.any_cons, List.any_nil, hself])]
    simp only [List.map_cons, List.map_nil]
    simp [hb, ht, hself]
  have hs1 : applyScale [("b", vb), ("t", vt)] [("b", vb), ("t", vt)]
      ⟨pfx, "b", "t", [(sfx, d1)]⟩ =
      .ok [("b", vb), ("t", vt), (pfx ++ "-" ++ toString sfx, v1)] := by
    show [(sfx, d1)].foldlM (applyStop pfx vb vt) [("b", vb), ("t", vt)] = _
    rw [List.foldlM_cons, hstop1, exceptBindOk, List.foldlM_nil]
    rfl
  have hs2 : applyScale [("b", vb), ("t", vt)]
      [("b", vb), ("t", vt), (pfx ++ "-" ++ toString sfx, v1)]
      ⟨pfx, "b", "t", [(sfx, d2)]⟩ =
      .ok [("b", vb), ("t", vt), (pfx ++ "-" ++ toString sfx, v2)] := by
    show [(sfx, d2)].foldlM (applyStop pfx vb vt)
      [("b", vb), ("t", vt), (pfx ++ "-" ++ toString sfx, v1)] = _
    rw [List.foldlM_cons, hstop2, exceptBindOk, List.foldlM_nil]
    rfl
  unfold rampPhase
  rw [List.foldlM_cons, hs1, exceptBindOk, List.foldlM_cons, hs2, exceptBindOk,
    List.foldlM_nil]
  rfl

/-- Witness for the amended C8: the concrete collision on `--x-100`. -/
theorem c8_witness :
    rampPhase c8Scales c8Theme =
      .ok [("b", "#000000"), ("t", "#FFFFFF"),
        ("--x" ++ "-" ++ toString 100, "#404040")] :=
  c8_amended "--x" 100 ⟨1, 2⟩ ⟨1, 4⟩ "#000000" "#FFFFFF" "#808080" "#404040"
    (by decide) (by decide) (by decide) (by decide)

/-- C9 counterexample: the seed token `--fg-500` reaches both emitted
outputs for `dark-red` with its authored lower-case value `#b33831`, not
a 6-digit uppercase serialization. -/
theorem c9_counterexample :
    ("--fg-500", "#b33831") ∈ sortedItems darkPalette ∧
    cssDeclLine ("--fg-500", "#b33831") ∈ cssBlockLines "dark-red" darkPalette ∧
    tsEntryLine ("--fg-500", "#b33831") ∈ tsLines darkPalette ∧
    isUpperHex6 "#b33831" = false ∧
    cssDeclLine ("--fg-500", "#b33831") = "  --fg-500: #b33831;" := by
  have hmem : ("--fg-500", "#b33831") ∈ darkPalette :=
    List.mem_append_left _ (by decide)
  have hs : ("--fg-500", "#b33831") ∈ sortedItems darkPalette :=
    (sortedItems_perm darkPalette).mem_iff.mpr hmem
  refine ⟨hs, ?_, ?_, by decide, by decide⟩
  · exact List.mem_cons_of_mem _
      (List.mem_append_left _ (List.mem_map.mpr ⟨_, hs, rfl⟩))
  · exact List.mem_cons_of_mem _ (List.mem_cons_of_mem _
      (List.mem_append_left _ (List.mem_map.mpr ⟨_, hs, rfl⟩)))

/-- C9 amended: the ramp-derived tokens of every configured theme are
serialized as `#` plus six uppercase hex digits (zero-padded per
channel); seed tokens are carried into the outputs verbatim as authored
(lower-case in this configuration). -/
theorem c9_amended :
    (∀ q ∈ midDark, q.1 ∉ keysOf darkRedSeeds → isUpperHex6 q.2 = true) ∧
    (∀ q ∈ midSemi, q.1 ∉ keysOf semiSkySeeds → isUpperHex6 q.2 = true) ∧
    (∀ q ∈ midSand, q.1 ∉ keysOf lightSandSeeds → isUpperHex6 q.2 = true) ∧
    (∀ q ∈ darkRedSeeds, midDark.lookup q.1 = some q.2) ∧
    (∀ q ∈ semiSkySeeds, midSemi.lookup q.1 = some q.2) ∧
    (∀ q ∈ lightSandSeeds, midSand.lookup q.1 = some q.2) :=
  ⟨by decide, by decide, by decide, by decide, by decide, by decide⟩

/-- Witness for the amended C9: the derived token `--fg-100` of
`dark-red` is uppercase hex, and is also bound unchanged in the final
palette. -/
theorem c9_witness :
    isUpperHex6 "#502A3E" = true ∧ darkPalette.lookup "--fg-100" = some "#502A3E" := by
  refine ⟨c9_amended.1 ("--fg-100", "#502A3E") (by decide) (by decide), by decide⟩

/-- C10: emission is all-or-nothing.  If palette construction fails for
any theme, the run records the error and performs no file write at all;
on the configured themes all palettes succeed and exactly the stylesheet
and then the typed map are written. -/
theorem c10_all_or_nothing :
    (∀ (themes : List (String × List (String × String)))
      (p : String × List (String × String)),
      p ∈ themes → (∀ pal, build_palette DERIVED_SCALES p.2 ≠ .ok pal) →
      (mainModel themes).1 = [] ∧ (mainModel themes).2.isSome = true) ∧
    mainModel THEMES =
      ([(OUT_CSS, emit_css builtThemes), (OUT_TS, emit_ts darkPalette)], none) := by
  constructor
  · intro themes p hp hfail
    have hf : ∀ y, (build_palette DERIVED_SCALES p.2).map
        (fun pal => (p.1, pal)) ≠ .ok y := by
      intro y hy
      rcases hb : build_palette DERIVED_SCALES p.2 with e | pal
      · rw [hb] at hy
        simp [Except.map] at hy
      · exact hfail pal hb
    obtain ⟨e, he⟩ := mapM_loop_error
      (fun q => (build_palette DERIVED_SCALES q.2).map (fun pal => (q.1, pal)))
      themes [] p hp hf
    have hpal : palettesOf themes = .error e := by
      unfold palettesOf List.mapM
      exact he
    constructor <;> simp [mainModel, hpal]
  · simp only [mainModel, palettesOf_THEMES]
    rfl

/-- Witness for C10: a configuration whose only theme lacks the ramp
references makes palette construction fail, and no write is performed. -/
theorem c10_witness :
    (mainModel [("broken", [("a", "b")])]).1 = [] ∧
    (mainModel [("broken", [("a", "b")])]).2.isSome = true := by
  have hb : build_palette DERIVED_SCALES [("a", "b")] =
      .error "KeyError: ramp reference missing from theme" := by decide
  exact c10_all_or_nothing.1 [("broken", [("a", "b")])] ("broken", [("a", "b")])
    (by decide) (fun pal h => by rw [hb] at h; cases h)

end ThemeGen
